import Mathlib

/-!
Shallow embedding of the Field Days statistics tracker.

The main embedding follows src/program.py. Rosters are modelled as lists of
player names: the Python code resolves every name to a shared Player instance
through get_player, so name-indexed state captures object identity. The global
mutable player registry is modelled as explicit state passing; Python
exceptions (ValueError, KeyError, ZeroDivisionError) are modelled with Except.
The legacy variant of add_win from src/Field_Days.py, which prints a message
and continues on an unknown game name, is embedded separately in namespace FD.
-/

deriving instance DecidableEq for Except

/-- Error values for the Python exceptions the program can raise. -/
inductive AggError where
  | invalidScoreFormat
  | malformedCell
  | unknownCategory (game : String)
  | invalidAmount
  | negativeStat
  | emptyTeam
  | invalidIdentifier
  | keyError (name : String)
  | zeroDivision
  deriving DecidableEq, Repr

/-- The fixed list of known player names (program.py, global player_names). -/
def player_names : List String :=
  ["Aaron", "AB", "Anthony", "Brandon", "Chris", "Eric", "Jacob", "Kiernan",
   "Quinn", "Sam G", "Sam S", "Tighe"]

/-- CONFIG GAME_TYPES of program.py: display name mapped to internal stat key. -/
def GAME_TYPES : List (String × String) :=
  [("PK\x27s", "pk"), ("Cross", "cross"), ("A/D", "ad"), ("P&F", "pf"),
   ("SS", "ss"), ("FK\x27s", "fk"), ("Days", "days"), ("Games", "games")]

/-- Dictionary lookup CONFIG GAME_TYPES[game], as an Option. -/
def lookupGameType (game : String) : Option String :=
  (GAME_TYPES.find? (fun kv => kv.1 == game)).map (fun kv => kv.2)

/-- GameStats dataclass: wins and losses for a single game type. -/
structure GameStats where
  wins : Nat
  losses : Nat
  deriving DecidableEq, Repr

/-- Player dataclass. The stats dictionary always holds exactly the internal
game-type keys and the teammates dictionary always holds exactly the names in
player_names (both are set that way by Player.post_init and no key is ever
added or removed), so both are modelled as total functions, with the fixed key
set enforced at each dictionary access that Python performs. -/
structure Player where
  stats : String → GameStats
  mvp : Nat
  clown : Nat
  teammates : String → Nat

/-- A freshly constructed Player: all counters zero. -/
def Player.initP : Player := ⟨fun _ => ⟨0, 0⟩, 0, 0, fun _ => 0⟩

/-- The global player registry: the list of registered names, in insertion
order, together with the per-name player data. -/
structure AggState where
  registry : List String
  data : String → Player

/-- The registry right after the reset at the top of read_excel:
players = [Player(name) for name in player_names]. -/
def initState : AggState := ⟨player_names, fun _ => Player.initP⟩

/-- In-place mutation of one player object, by name. -/
def AggState.modifyPlayer (st : AggState) (n : String) (f : Player → Player) : AggState :=
  ⟨st.registry, fun m => if m = n then f (st.data m) else st.data m⟩

/-- player.stats[c].wins += k -/
def Player.addW (c : String) (k : Nat) (pl : Player) : Player :=
  ⟨fun c2 => if c2 = c then ⟨(pl.stats c2).wins + k, (pl.stats c2).losses⟩ else pl.stats c2,
   pl.mvp, pl.clown, pl.teammates⟩

/-- player.stats[c].losses += k -/
def Player.addL (c : String) (k : Nat) (pl : Player) : Player :=
  ⟨fun c2 => if c2 = c then ⟨(pl.stats c2).wins, (pl.stats c2).losses + k⟩ else pl.stats c2,
   pl.mvp, pl.clown, pl.teammates⟩

/-- player.teammates[o] += 1 -/
def Player.bumpMate (o : String) (pl : Player) : Player :=
  ⟨pl.stats, pl.mvp, pl.clown,
   fun q => if q = o then pl.teammates q + 1 else pl.teammates q⟩

/-- player.mvp += 1 -/
def Player.bumpMvp (pl : Player) : Player := ⟨pl.stats, pl.mvp + 1, pl.clown, pl.teammates⟩

/-- player.clown += 1 -/
def Player.bumpClown (pl : Player) : Player := ⟨pl.stats, pl.mvp, pl.clown + 1, pl.teammates⟩

/-- Number of occurrences of a name in a roster list. -/
def countOcc (a : String) : List String → Nat
  | [] => 0
  | b :: l => (if b = a then 1 else 0) + countOcc a l

/-- Prefix test on character lists. -/
def startsWithL : List Char → List Char → Bool
  | [], _ => true
  | _ :: _, [] => false
  | a :: as2, b :: bs => a == b && startsWithL as2 bs

/-- Fuel-indexed worker for Python str.split with a nonempty separator; the
fuel only makes the recursion structural and never runs out when it starts at
the length of the input plus one. -/
def splitGo (sep : List Char) : Nat → List Char → List Char → List (List Char)
  | 0, acc, _ => [acc.reverse]
  | _ + 1, acc, [] => [acc.reverse]
  | fuel + 1, acc, c :: cs =>
    if startsWithL sep (c :: cs) then
      acc.reverse :: splitGo sep fuel [] ((c :: cs).drop sep.length)
    else splitGo sep fuel (c :: acc) cs

/-- Python str.split(sep) for a nonempty separator string. -/
def pySplit (sep : String) (s : String) : List String :=
  (splitGo sep.data (s.data.length + 1) [] s.data).map (fun l => ⟨l⟩)

/-- Python str.strip(): remove surrounding whitespace. -/
def pyStrip (s : String) : String :=
  ⟨((s.data.dropWhile Char.isWhitespace).reverse.dropWhile Char.isWhitespace).reverse⟩

/-- Python str.lower() on the names this program compares (ASCII). -/
def pyLower (s : String) : String := ⟨s.data.map Char.toLower⟩

/-- Python slicing s[1:-1]: all characters but the first and last. -/
def dropFirstLast (s : String) : String :=
  match s.data with
  | [] => ⟨[]⟩
  | _ :: cs => ⟨cs.dropLast⟩

/-- Lexicographic comparison by character code, as Python compares the
lowercased sort keys. -/
def charListLt : List Char → List Char → Bool
  | [], [] => false
  | [], _ :: _ => true
  | _ :: _, [] => false
  | a :: as2, b :: bs => a < b || (a == b && charListLt as2 bs)

/-- remove_player of program.py: the list without every player of that name. -/
def remove_player (rem : String) : List String → List String
  | [] => []
  | p :: l => if p = rem then remove_player rem l else p :: remove_player rem l

/-- Value of a nonempty list of decimal digits, None on any non-digit. -/
def digitsVal (l : List Char) : Option Nat :=
  if l = [] ∨ l.any (fun c => !c.isDigit) then none
  else some (l.foldl (fun n c => 10 * n + (c.toNat - 48)) 0)

/-- Models the Python builtin int() applied to a stripped-down decimal string:
surrounding whitespace, an optional sign, then decimal digits. -/
def pyInt (s : String) : Option Int :=
  match (pyStrip s).data with
  | [] => none
  | c :: cs =>
    if c = '+' then (digitsVal cs).map (fun n => (n : Int))
    else if c = '-' then (digitsVal cs).map (fun n => -(n : Int))
    else (digitsVal (c :: cs)).map (fun n => (n : Int))

/-- map(int, score.split("-")) followed by unpacking into exactly two values;
None models the ValueError of either step. -/
def parseScore (s : String) : Option (Int × Int) :=
  match (pySplit "-" s).map pyInt with
  | [some a, some b] => some (a, b)
  | _ => none

/-- Game dataclass: a single game within a field day. The two score fields are
the values computed by post_init, which guarantees they are nonnegative. -/
structure Game where
  name : String
  score : String
  team1_score : Nat
  team2_score : Nat
  deriving DecidableEq, Repr

/-- Game construction including Game.post_init: parse and validate the score
string, raising invalidScoreFormat on failure (never defaulting the fields). -/
def Game.build (name score : String) : Except AggError Game :=
  match parseScore score with
  | none => .error .invalidScoreFormat
  | some (a, b) =>
    if a < 0 ∨ b < 0 then .error .invalidScoreFormat
    else .ok ⟨name, score, a.toNat, b.toNat⟩

/-- Day dataclass: one complete field day. Rosters are lists of player names
resolved through the shared registry. -/
structure Day where
  team1 : List String
  team2 : List String
  score : String
  games : List Game
  team1_score : Nat
  team2_score : Nat
  deriving DecidableEq, Repr

/-- Day construction including Day.post_init: same score validation as Game. -/
def Day.build (team1 team2 : List String) (score : String) (games : List Game) :
    Except AggError Day :=
  match parseScore score with
  | none => .error .invalidScoreFormat
  | some (a, b) =>
    if a < 0 ∨ b < 0 then .error .invalidScoreFormat
    else .ok ⟨team1, team2, score, games, a.toNat, b.toNat⟩

/-- get_player of program.py: reject empty names, then look the name up in the
registry, creating and appending a fresh zeroed player when absent. Because
the data map is total with zeroed defaults, creation only records the name. -/
def get_player (st : AggState) (name : String) : Except AggError AggState :=
  if name = "" then .error .invalidIdentifier
  else if st.registry.contains name then .ok st
  else .ok ⟨st.registry ++ [name], st.data⟩

/-- Loop body of init_team: resolve each stripped name in order. -/
def initTeamGo : AggState → List String → List String → Except AggError (AggState × List String)
  | st, acc, [] => .ok (st, acc)
  | st, acc, n :: ns =>
    match get_player st (pyStrip n) with
    | .error e => .error e
    | .ok st2 => initTeamGo st2 (acc ++ [pyStrip n]) ns

/-- init_team of program.py: reject an empty name list, then resolve names. -/
def init_team (st : AggState) (names : List String) : Except AggError (AggState × List String) :=
  if names = [] then .error .emptyTeam
  else initTeamGo st [] names

/-- The mutation loop of add_win, after its two checks have passed. -/
def addWinPure (c : String) (k : Nat) (team : List String) (st : AggState) : AggState :=
  team.foldl (fun s n => s.modifyPlayer n (Player.addW c k)) st

/-- The mutation loop of add_loss, after its two checks have passed. -/
def addLossPure (c : String) (k : Nat) (team : List String) (st : AggState) : AggState :=
  team.foldl (fun s n => s.modifyPlayer n (Player.addL c k)) st

/-- add_win of program.py: reject a game name outside GAME_TYPES and a negative
amount, then add amt wins of the internal game type to every player on the
team. Counters stay Nat because the guard makes the added amount nonnegative. -/
def add_win (game : String) (team : List String) (amt : Int) (st : AggState) :
    Except AggError AggState :=
  match lookupGameType game with
  | none => .error (.unknownCategory game)
  | some c => if amt < 0 then .error .invalidAmount else .ok (addWinPure c amt.toNat team st)

/-- add_loss of program.py, mirror image of add_win. -/
def add_loss (game : String) (team : List String) (amt : Int) (st : AggState) :
    Except AggError AggState :=
  match lookupGameType game with
  | none => .error (.unknownCategory game)
  | some c => if amt < 0 then .error .invalidAmount else .ok (addLossPure c amt.toNat team st)

/-- Inner loop of update_team_lists for one player p: bump p.teammates[o] for
each other player o, where the dictionary access raises KeyError whenever o is
not one of the keys, which are exactly player_names. -/
def bumpOthers (p : String) : List String → AggState → Except AggError AggState
  | [], st => .ok st
  | o :: os, st =>
    if player_names.contains o then bumpOthers p os (st.modifyPlayer p (Player.bumpMate o))
    else .error (.keyError o)

/-- Outer loop of update_team_lists over the team; remove_player is recomputed
from the full team at every iteration, as in the source. -/
def utlGo (full : List String) : List String → AggState → Except AggError AggState
  | [], st => .ok st
  | p :: ps, st =>
    match bumpOthers p (remove_player p full) st with
    | .error e => .error e
    | .ok st2 => utlGo full ps st2

/-- update_team_lists of program.py: reject an empty team, then run the loops. -/
def update_team_lists (team : List String) (st : AggState) : Except AggError AggState :=
  if team = [] then .error .emptyTeam else utlGo team team st

/-- Pure image of the inner loop of update_team_lists. -/
def bumpOthersPure (p : String) (others : List String) (st : AggState) : AggState :=
  others.foldl (fun s o => s.modifyPlayer p (Player.bumpMate o)) st

/-- Pure image of the outer loop of update_team_lists. -/
def utlPureGo (full : List String) (part : List String) (st : AggState) : AggState :=
  part.foldl (fun s p => bumpOthersPure p (remove_player p full) s) st

/-- Pure image of a successful update_team_lists run. -/
def utlPure (team : List String) (st : AggState) : AggState := utlPureGo team team st

/-- Decides whether every teammate-dictionary access made by update_team_lists
on this team hits an existing key. -/
def teamKeysOk (team : List String) : Bool :=
  team.all (fun p => (remove_player p team).all (fun o => player_names.contains o))

/-- Round to the nearest integer (the exact tie-breaking of Python float
rounding is not observable in any claim; rationals model the quotient). -/
def roundQ (q : ℚ) : Int := Rat.floor (q + 1 / 2)

/-- Python round(x, 4). -/
def round4 (q : ℚ) : ℚ := ((roundQ (q * 10000) : Int) : ℚ) / 10000

/-- Python round(x, 3). -/
def round3 (q : ℚ) : ℚ := ((roundQ (q * 1000) : Int) : ℚ) / 1000

/-- Value computation of update_stat in program.py: the record string and the
winning percentage written into the two table cells; the DataFrame itself is
an external sink. Negative counts raise, and a 0-0 record short-circuits the
percentage to exactly 0 before any division happens. -/
def update_stat (wins losses : Int) : Except AggError (String × ℚ) :=
  if wins < 0 ∨ losses < 0 then .error .negativeStat
  else .ok (toString wins ++ "-" ++ toString losses,
    if wins = 0 ∧ losses = 0 then 0
    else round4 ((wins : ℚ) / ((wins : ℚ) + (losses : ℚ))))

/-- Winner or loser sides with their scores, as assigned by the four-variable
tuple assignments in parse_days. -/
structure Outcome where
  winners : List String
  losers : List String
  wScore : Nat
  lScore : Nat
  deriving DecidableEq, Repr

/-- Day-level tuple assignment of parse_days: team 1 wins on a strictly greater
score, any other comparison (including a tie) selects team 2. -/
def dayOutcome (d : Day) : Outcome :=
  if d.team1_score > d.team2_score then ⟨d.team1, d.team2, d.team1_score, d.team2_score⟩
  else ⟨d.team2, d.team1, d.team2_score, d.team1_score⟩

/-- Game-level tuple assignment of parse_days, on the game scores but the same
two day rosters. -/
def gameOutcome (d : Day) (g : Game) : Outcome :=
  if g.team1_score > g.team2_score then ⟨d.team1, d.team2, g.team1_score, g.team2_score⟩
  else ⟨d.team2, d.team1, g.team2_score, g.team1_score⟩

/-- The outcome-resolution rule as the specification states it, for comparison
with the two inlined tuple assignments of parse_days. -/
def resolveOutcome (t1 t2 : List String) (s1 s2 : Nat) : Outcome :=
  if s1 > s2 then ⟨t1, t2, s1, s2⟩ else ⟨t2, t1, s2, s1⟩

/-- Per-game loop of parse_days. -/
def gamesGo (d : Day) : List Game → AggState → Except AggError AggState
  | [], st => .ok st
  | g :: gs, st => do
    let st1 ← add_win g.name (gameOutcome d g).winners ((gameOutcome d g).wScore : Int) st
    let st2 ← add_loss g.name (gameOutcome d g).winners ((gameOutcome d g).lScore : Int) st1
    let st3 ← add_win g.name (gameOutcome d g).losers ((gameOutcome d g).lScore : Int) st2
    let st4 ← add_loss g.name (gameOutcome d g).losers ((gameOutcome d g).wScore : Int) st3
    gamesGo d gs st4

/-- Body of the day loop of parse_days in program.py. -/
def parse_day (st : AggState) (d : Day) : Except AggError AggState := do
  let st1 ← update_team_lists d.team1 st
  let st2 ← update_team_lists d.team2 st1
  let st3 ← add_win "Days" (dayOutcome d).winners 1 st2
  let st4 ← add_loss "Days" (dayOutcome d).losers 1 st3
  let st5 ← add_win "Games" (dayOutcome d).winners ((dayOutcome d).wScore : Int) st4
  let st6 ← add_loss "Games" (dayOutcome d).winners ((dayOutcome d).lScore : Int) st5
  let st7 ← add_win "Games" (dayOutcome d).losers ((dayOutcome d).lScore : Int) st6
  let st8 ← add_loss "Games" (dayOutcome d).losers ((dayOutcome d).wScore : Int) st7
  gamesGo d d.games st8

/-- parse_days of program.py: fold the day loop over the list of days. -/
def parse_days : List Day → AggState → Except AggError AggState
  | [], st => .ok st
  | d :: ds, st =>
    match parse_day st d with
    | .error e => .error e
    | .ok st2 => parse_days ds st2

/-- Pure image of one iteration of the per-game loop (identity when the game
name has no internal key, a case in which the monadic loop errors instead). -/
def gameStep (d : Day) (st : AggState) (g : Game) : AggState :=
  match lookupGameType g.name with
  | none => st
  | some c =>
    addLossPure c (gameOutcome d g).wScore (gameOutcome d g).losers
      (addWinPure c (gameOutcome d g).lScore (gameOutcome d g).losers
        (addLossPure c (gameOutcome d g).lScore (gameOutcome d g).winners
          (addWinPure c (gameOutcome d g).wScore (gameOutcome d g).winners st)))

/-- Pure image of the six day-level award calls of parse_days. -/
def dayAward (d : Day) (st : AggState) : AggState :=
  addLossPure "games" (dayOutcome d).wScore (dayOutcome d).losers
    (addWinPure "games" (dayOutcome d).lScore (dayOutcome d).losers
      (addLossPure "games" (dayOutcome d).lScore (dayOutcome d).winners
        (addWinPure "games" (dayOutcome d).wScore (dayOutcome d).winners
          (addLossPure "days" 1 (dayOutcome d).losers
            (addWinPure "days" 1 (dayOutcome d).winners st)))))

/-- The six sub-game display names (GAME_TYPES without Days and Games). -/
def subGameNames : List String := ["PK\x27s", "Cross", "A/D", "P&F", "SS", "FK\x27s"]

/-- The six sub-game internal stat keys. -/
def subGameKeys : List String := ["pk", "cross", "ad", "pf", "ss", "fk"]

/-- Total wins a player gains in category c across a list of sub-games, each
resolved by its own scores with the point-weighted rule. -/
def subWins (d : Day) (p c : String) (gs : List Game) : Nat :=
  (gs.map (fun g =>
    if lookupGameType g.name = some c then
      countOcc p (gameOutcome d g).winners * (gameOutcome d g).wScore
        + countOcc p (gameOutcome d g).losers * (gameOutcome d g).lScore
    else 0)).sum

/-- Total losses a player gains in category c across a list of sub-games. -/
def subLosses (d : Day) (p c : String) (gs : List Game) : Nat :=
  (gs.map (fun g =>
    if lookupGameType g.name = some c then
      countOcc p (gameOutcome d g).winners * (gameOutcome d g).lScore
        + countOcc p (gameOutcome d g).losers * (gameOutcome d g).wScore
    else 0)).sum

/-- Wins a player gains in category c2 from the six day-level award calls. -/
def dayWinsDelta (d : Day) (p c2 : String) : Nat :=
  (if c2 = "days" then countOcc p (dayOutcome d).winners else 0)
    + (if c2 = "games" then
        countOcc p (dayOutcome d).winners * (dayOutcome d).wScore
          + countOcc p (dayOutcome d).losers * (dayOutcome d).lScore
      else 0)

/-- Losses a player gains in category c2 from the six day-level award calls. -/
def dayLossDelta (d : Day) (p c2 : String) : Nat :=
  (if c2 = "days" then countOcc p (dayOutcome d).losers else 0)
    + (if c2 = "games" then
        countOcc p (dayOutcome d).winners * (dayOutcome d).lScore
          + countOcc p (dayOutcome d).losers * (dayOutcome d).wScore
      else 0)

/-- True on the ok constructor; evaluation helper for concrete runs. -/
def exIsOk {α : Type} : Except AggError α → Bool
  | .ok _ => true
  | .error _ => false

/-- Games-category points (wins plus losses) summed over the distinct players
of both rosters of one day, read from a state. -/
def gamesTotal (st : AggState) (d : Day) : Nat :=
  (((d.team1 ++ d.team2).dedup).map
    (fun n => ((st.data n).stats "games").wins + ((st.data n).stats "games").losses)).sum

/-- A Date cell of the Days sheet: either a pandas Timestamp (carrying its
year) or a raw string still to be parsed. -/
inductive DateCell where
  | timestamp (year : Int)
  | cell (s : String)
  deriving DecidableEq, Repr

/-- One row of the Days sheet, with the fields read_excel reads: the date, the
two raw team strings, the raw score string, the Game column cells (None for a
NaN cell), and the optional MVP and Clown cells. -/
structure Row where
  date : DateCell
  team1 : String
  team2 : String
  score : String
  games : List (Option String)
  mvp : Option String
  clown : Option String
  deriving DecidableEq, Repr

/-- Year extraction of read_excel: a Timestamp yields its year; a string with a
dash yields the integer before the first dash, otherwise the integer after the
last slash, mapped into the 2000s when at most 1000; None models the exception
path that makes read_excel skip the row with a warning. -/
def rowYear : DateCell → Option Int
  | .timestamp y => some y
  | .cell s =>
    if s.data.contains '-' then pyInt ((pySplit "-" s).headD "")
    else (pyInt ((pySplit "/" s).getLastD "")).map (fun y => if y > 1000 then y else 2000 + y)

/-- The row filter of read_excel: not season or (season and year == season).
A missing season, or the falsy season 0, selects every row. -/
def rowSelected : Option Int → Int → Bool
  | none, _ => true
  | some s, y => s == 0 || y == s

/-- MVP handling in read_excel: when the cell is a string, resolve the player
and bump its mvp counter. -/
def applyMvp (st : AggState) : Option String → Except AggError AggState
  | none => .ok st
  | some m =>
    match get_player st m with
    | .error e => .error e
    | .ok st2 => .ok (st2.modifyPlayer m Player.bumpMvp)

/-- Clown handling in read_excel, mirror of applyMvp. -/
def applyClown (st : AggState) : Option String → Except AggError AggState
  | none => .ok st
  | some m =>
    match get_player st m with
    | .error e => .error e
    | .ok st2 => .ok (st2.modifyPlayer m Player.bumpClown)

/-- One Game cell: split on the single space into name and parenthesised
score, strip the first and last character, and construct the Game. A split
that does not produce exactly two parts models the unpack ValueError. -/
def parseGameCell (cell : String) : Except AggError Game :=
  match pySplit " " cell with
  | [game_name, game_score] => Game.build game_name (dropFirstLast game_score)
  | _ => .error .malformedCell

/-- The Game-column loop of read_excel over the non-NaN cells. -/
def gamesFromCells : List String → Except AggError (List Game)
  | [] => .ok []
  | cll :: cs =>
    match parseGameCell cll with
    | .error e => .error e
    | .ok g =>
      match gamesFromCells cs with
      | .error e => .error e
      | .ok gs => .ok (g :: gs)

/-- Body of the row loop of read_excel for a selected row, in source order:
resolve team 1, resolve team 2, bump MVP and Clown, parse the game cells, and
construct the Day (which is where the day score string is validated). -/
def processRowBody (st : AggState) (days : List Day) (row : Row) :
    Except AggError (AggState × List Day) :=
  match init_team st (pySplit ", " row.team1) with
  | .error e => .error e
  | .ok (st1, team1) =>
    match init_team st1 (pySplit ", " row.team2) with
    | .error e => .error e
    | .ok (st2, team2) =>
      match applyMvp st2 row.mvp with
      | .error e => .error e
      | .ok st3 =>
        match applyClown st3 row.clown with
        | .error e => .error e
        | .ok st4 =>
          match gamesFromCells (row.games.filterMap id) with
          | .error e => .error e
          | .ok games =>
            match Day.build team1 team2 row.score games with
            | .error e => .error e
            | .ok day => .ok (st4, days ++ [day])

/-- One iteration of the row loop of read_excel: skip rows whose date fails to
parse, process rows the season filter selects, skip the rest. -/
def processRow (season : Option Int) (st : AggState) (days : List Day) (row : Row) :
    Except AggError (AggState × List Day) :=
  match rowYear row.date with
  | none => .ok (st, days)
  | some y => if rowSelected season y then processRowBody st days row else .ok (st, days)

/-- The row loop of read_excel. -/
def readRows (season : Option Int) : AggState → List Day → List Row →
    Except AggError (AggState × List Day)
  | st, days, [] => .ok (st, days)
  | st, days, r :: rs =>
    match processRow season st days r with
    | .error e => .error e
    | .ok (st2, days2) => readRows season st2 days2 rs

/-- Pure core of read_excel in program.py: reset the registry to freshly
zeroed players for player_names, then fold the row loop over the sheet rows.
The interactive new-day branch and the spreadsheet I/O are external. -/
def read_excel (season : Option Int) (rows : List Row) :
    Except AggError (AggState × List Day) :=
  readRows season initState [] rows

/-- One aggregation pass as main runs it: read_excel then parse_days. -/
def run_pass (season : Option Int) (rows : List Row) : Except AggError AggState :=
  match read_excel season rows with
  | .error e => .error e
  | .ok (st, days) => parse_days days st

/-- One record-and-percentage cell pair of the Stats table. -/
structure StatLine where
  record : String
  pct : ℚ
  deriving DecidableEq, Repr

/-- Everything update_excel writes for one player on the full-history pass:
the name, the eight record cells, the MVP and Clown counts, and the
normalized teammate-frequency row. -/
structure OutRow where
  name : String
  stats : List StatLine
  mvp : Nat
  clown : Nat
  mates : List (String × ℚ)
  deriving DecidableEq, Repr

/-- The eight (wins, losses) pairs update_excel reads, in column order. -/
def wlPairs (pl : Player) : List (Nat × Nat) :=
  [((pl.stats "days").wins, (pl.stats "days").losses),
   ((pl.stats "games").wins, (pl.stats "games").losses),
   ((pl.stats "pk").wins, (pl.stats "pk").losses),
   ((pl.stats "cross").wins, (pl.stats "cross").losses),
   ((pl.stats "ad").wins, (pl.stats "ad").losses),
   ((pl.stats "pf").wins, (pl.stats "pf").losses),
   ((pl.stats "ss").wins, (pl.stats "ss").losses),
   ((pl.stats "fk").wins, (pl.stats "fk").losses)]

/-- Days played: wins plus losses in the Days category. -/
def daysPlayed (pl : Player) : Nat := (pl.stats "days").wins + (pl.stats "days").losses

/-- One update_stat call as made by update_excel. -/
def statCell (wl : Nat × Nat) : Except AggError StatLine :=
  match update_stat (wl.1 : Int) (wl.2 : Int) with
  | .error e => .error e
  | .ok rp => .ok ⟨rp.1, rp.2⟩

/-- One Teams-sheet cell of the full-history pass: the raw co-occurrence count
divided by the days played, a ZeroDivisionError when the player has none. -/
def mateCell (pl : Player) (n : String) : Except AggError (String × ℚ) :=
  if daysPlayed pl = 0 then .error .zeroDivision
  else .ok (n, round3 ((pl.teammates n : ℚ) / (daysPlayed pl : ℚ)))

/-- Error-aware map, modelling a Python loop that can raise. -/
def mapE {α β : Type} (f : α → Except AggError β) : List α → Except AggError (List β)
  | [] => .ok []
  | a :: as2 =>
    match f a with
    | .error e => .error e
    | .ok b =>
      match mapE f as2 with
      | .error e => .error e
      | .ok bs => .ok (b :: bs)

/-- Stable insertion of a name into a list sorted by lowercased name. -/
def insLower (x : String) : List String → List String
  | [] => [x]
  | y :: ys =>
    if charListLt (pyLower y).data (pyLower x).data then y :: insLower x ys
    else x :: y :: ys

/-- sorted(players, key=lambda p: p.name.lower()): stable sort by lowercased
name. -/
def sortByLower : List String → List String
  | [] => []
  | x :: xs => insLower x (sortByLower xs)

/-- The per-player body of the update_excel loop on the full-history pass
(season None, active_players None): all eight record cells, the award counts,
and the teammate row with its per-cell division. -/
def playerRow (st : AggState) (name : String) : Except AggError OutRow :=
  match mapE statCell (wlPairs (st.data name)) with
  | .error e => .error e
  | .ok lines =>
    match mapE (mateCell (st.data name)) player_names with
    | .error e => .error e
    | .ok mates => .ok ⟨name, lines, (st.data name).mvp, (st.data name).clown, mates⟩

/-- Value core of update_excel in program.py specialised to the full-history
pass: iterate over all registered players sorted by lowercased name; no
player is skipped and the teammate row is emitted for every one of them. -/
def update_excel_full (st : AggState) : Except AggError (List OutRow) :=
  mapE (playerRow st) (sortByLower st.registry)

/-- The full-history pipeline of main: read everything, aggregate, and write
the Stats and Teams output. -/
def full_history_pipeline (rows : List Row) : Except AggError (List OutRow) :=
  match run_pass none rows with
  | .error e => .error e
  | .ok st => update_excel_full st

/-- The record string and percentage update_stat yields for a Nat record. -/
def statLineOf (w l : Nat) : StatLine :=
  ⟨toString (w : Int) ++ "-" ++ toString (l : Int),
   if (w : Int) = 0 ∧ (l : Int) = 0 then 0
   else round4 (((w : Int) : ℚ) / (((w : Int) : ℚ) + ((l : Int) : ℚ)))⟩

/-- The full-history output row the specification describes for one player. -/
def outRowOf (pl : Player) (name : String) : OutRow :=
  ⟨name, (pl |> wlPairs).map (fun wl => statLineOf wl.1 wl.2), pl.mvp, pl.clown,
   player_names.map (fun n => (n, round3 ((pl.teammates n : ℚ) / (daysPlayed pl : ℚ))))⟩

namespace FD

/-- Player of the legacy Field_Days.py: one named counter per game type, all
plain Python ints, and a teammates dictionary that starts empty. -/
structure Player where
  name : String
  pk_w : Int
  pk_l : Int
  cross_w : Int
  cross_l : Int
  ad_w : Int
  ad_l : Int
  pf_w : Int
  pf_l : Int
  ss_w : Int
  ss_l : Int
  fk_w : Int
  fk_l : Int
  days_w : Int
  days_l : Int
  games_w : Int
  games_l : Int
  mvp : Int
  clown : Int
  teammates : List (String × Int)
  deriving DecidableEq, Repr

/-- A freshly constructed legacy Player. -/
def mkPlayer (name : String) : Player :=
  ⟨name, 0, 0, 0, 0, 0, 0, 0, 0, 0, 0, 0, 0, 0, 0, 0, 0, 0, 0, []⟩

/-- One branch chain of the legacy add_win for one player: update the matching
counter, or print the message and leave the player untouched. -/
def applyWin (game : String) (amt : Int) (p : Player) : Player × Option String :=
  if game = "PK\x27s" then ({ p with pk_w := p.pk_w + amt }, none)
  else if game = "Cross" then ({ p with cross_w := p.cross_w + amt }, none)
  else if game = "A/D" then ({ p with ad_w := p.ad_w + amt }, none)
  else if game = "P&F" then ({ p with pf_w := p.pf_w + amt }, none)
  else if game = "SS" then ({ p with ss_w := p.ss_w + amt }, none)
  else if game = "FK\x27s" then ({ p with fk_w := p.fk_w + amt }, none)
  else if game = "Days" then ({ p with days_w := p.days_w + amt }, none)
  else if game = "Games" then ({ p with games_w := p.games_w + amt }, none)
  else (p, some ("Game " ++ game ++ " does not exist!"))

/-- add_win of Field_Days.py: apply the branch chain to every player on the
team, collecting printed messages; there is no validity or sign check and the
function always returns normally. -/
def add_win (game : String) : List Player → Int → List Player × List String
  | [], _ => ([], [])
  | p :: ps, amt =>
    match applyWin game amt p, add_win game ps amt with
    | (p2, log), (ps2, logs) => (p2 :: ps2, log.toList ++ logs)

end FD

/-- Concrete day for the claim C1 witness: Aaron beats AB 2-1 on the day, and
loses the single PK sub-game 1-3. -/
def c1day : Day := ⟨["Aaron"], ["AB"], "2-1", [⟨"PK\x27s", "1-3", 1, 3⟩], 2, 1⟩

/-- Concrete tie day for the claim C2 witness. -/
def c2day : Day := ⟨["Aaron", "AB"], ["Anthony"], "3-3", [], 3, 3⟩

/-- Concrete 2-versus-1 day for claim C4. -/
def c4day : Day := ⟨["Aaron", "AB"], ["Anthony"], "2-1", [], 2, 1⟩

/-- Concrete one-day history for the claim C5 witness. -/
def c5days : List Day := [⟨["Aaron", "AB"], ["Anthony"], "5-4", [], 5, 4⟩]

/-- Concrete day whose only unknown name is alone on its roster (claim C10). -/
def c10dayOk : Day := ⟨["Zed"], ["Aaron", "AB"], "2-1", [], 2, 1⟩

/-- Concrete roster where the unknown name Zed shares the roster with Aaron. -/
def c10team : List String := ["Zed", "Aaron"]

/-- Concrete day using the roster c10team, for the claim C10 witness. -/
def c10dayErr : Day := ⟨c10team, ["AB"], "2-1", [], 2, 1⟩

/-- Concrete two-season row list for the claim C3 witness. -/
def c3rows : List Row :=
  [⟨.timestamp 2023, "Aaron, AB", "Anthony", "2-1", [], none, none⟩,
   ⟨.timestamp 2024, "Aaron", "AB", "1-0", [], none, none⟩]

/-- Stats cell of one player and category after processing a single day, None
when processing raised. -/
def statsAfterDay (st : AggState) (d : Day) (p c : String) : Option GameStats :=
  match parse_day st d with
  | .ok st2 => some ((st2.data p).stats c)
  | .error _ => none

/-- Teammate counter of one player pair after an aggregation run, None when
the run raised. -/
def mateAfterDays (days : List Day) (st : AggState) (r q : String) : Option Nat :=
  match parse_days days st with
  | .ok st2 => some ((st2.data r).teammates q)
  | .error _ => none

/-- Games-category points summed over the rosters of a day after processing
it, None when processing raised. -/
def gamesTotalAfter (st : AggState) (d : Day) : Option Nat :=
  match parse_day st d with
  | .ok st2 => some (gamesTotal st2 d)
  | .error _ => none

/-- Concrete player for the claim C6 witness: three days played and three
co-occurrences with AB. -/
def c6player : Player :=
  ⟨fun c => if c = "days" then ⟨2, 1⟩ else ⟨0, 0⟩, 0, 0,
   fun q => if q = "AB" then 3 else 0⟩

/-- Concrete one-player registry for the claim C6 witness. -/
def c6state : AggState := ⟨["Aaron"], fun _ => c6player⟩

/-- Reading a player after modifying one player. -/
theorem modifyPlayer_data (st : AggState) (n : String) (f : Player → Player) (p : String) :
    ((st.modifyPlayer n f).data p) = if p = n then f (st.data p) else st.data p := rfl

/-- A fold of per-player modifications preserves any player projection each
step preserves. -/
theorem foldl_data_pres {α γ : Type} (step : AggState → α → AggState) (proj : Player → γ)
    (hstep : ∀ s a p, proj ((step s a).data p) = proj (s.data p)) :
    ∀ (l : List α) (st : AggState) (p : String),
      proj (((l.foldl step st).data p)) = proj (st.data p) := by
  intro l
  induction l with
  | nil => intro st p; rfl
  | cons a l ih => intro st p; rw [List.foldl_cons, ih, hstep]

/-- Effect of the add_win mutation loop on every stats counter. -/
theorem addWinPure_stats (c : String) (k : Nat) (team : List String) :
    ∀ (st : AggState) (p c2 : String),
      ((addWinPure c k team st).data p).stats c2 =
        ⟨((st.data p).stats c2).wins + (if c2 = c then countOcc p team * k else 0),
         ((st.data p).stats c2).losses⟩ := by
  induction team with
  | nil => intro st p c2; simp [addWinPure, countOcc]
  | cons n team ih =>
    intro st p c2
    rw [addWinPure, List.foldl_cons, ← addWinPure, ih, modifyPlayer_data]
    by_cases hp : p = n
    · subst hp
      by_cases hc : c2 = c
      · simp [Player.addW, hc, countOcc, GameStats.mk.injEq]
        ring
      · simp [Player.addW, hc, countOcc]
    · have hnp : ¬ n = p := fun h => hp h.symm
      simp [hp, hnp, countOcc]

/-- Effect of the add_loss mutation loop on every stats counter. -/
theorem addLossPure_stats (c : String) (k : Nat) (team : List String) :
    ∀ (st : AggState) (p c2 : String),
      ((addLossPure c k team st).data p).stats c2 =
        ⟨((st.data p).stats c2).wins,
         ((st.data p).stats c2).losses + (if c2 = c then countOcc p team * k else 0)⟩ := by
  induction team with
  | nil => intro st p c2; simp [addLossPure, countOcc]
  | cons n team ih =>
    intro st p c2
    rw [addLossPure, List.foldl_cons, ← addLossPure, ih, modifyPlayer_data]
    by_cases hp : p = n
    · subst hp
      by_cases hc : c2 = c
      · simp [Player.addL, hc, countOcc, GameStats.mk.injEq]
        ring
      · simp [Player.addL, hc, countOcc]
    · have hnp : ¬ n = p := fun h => hp h.symm
      simp [hp, hnp, countOcc]

/-- The add_win loop does not touch teammate dictionaries. -/
theorem addWinPure_teammates (c : String) (k : Nat) (team : List String)
    (st : AggState) (p : String) :
    ((addWinPure c k team st).data p).teammates = ((st.data p)).teammates := by
  refine foldl_data_pres _ (fun pl => pl.teammates) ?_ team st p
  intro s a q
  rw [modifyPlayer_data]
  by_cases h : q = a <;> simp [h, Player.addW]

/-- The add_loss loop does not touch teammate dictionaries. -/
theorem addLossPure_teammates (c : String) (k : Nat) (team : List String)
    (st : AggState) (p : String) :
    ((addLossPure c k team st).data p).teammates = ((st.data p)).teammates := by
  refine foldl_data_pres _ (fun pl => pl.teammates) ?_ team st p
  intro s a q
  rw [modifyPlayer_data]
  by_cases h : q = a <;> simp [h, Player.addL]

/-- Effect of the inner update_team_lists loop on teammate counters. -/
theorem bumpOthersPure_teammates (p2 : String) (os : List String) :
    ∀ (st : AggState) (r q : String),
      ((bumpOthersPure p2 os st).data r).teammates q =
        ((st.data r).teammates q) + (if r = p2 then countOcc q os else 0) := by
  induction os with
  | nil => intro st r q; simp [bumpOthersPure, countOcc]
  | cons o os ih =>
    intro st r q
    rw [bumpOthersPure, List.foldl_cons, ← bumpOthersPure, ih, modifyPlayer_data]
    by_cases hr : r = p2
    · subst hr
      by_cases hq : q = o
      · subst hq
        simp [Player.bumpMate, countOcc]
        omega
      · have hoq : ¬ o = q := fun h => hq h.symm
        simp [Player.bumpMate, hq, hoq, countOcc]
    · simp [hr]

/-- The inner update_team_lists loop does not touch stats. -/
theorem bumpOthersPure_stats (p2 : String) (os : List String) (st : AggState) (p : String) :
    ((bumpOthersPure p2 os st).data p).stats = ((st.data p)).stats := by
  refine foldl_data_pres _ (fun pl => pl.stats) ?_ os st p
  intro s a q
  rw [modifyPlayer_data]
  by_cases h : q = p2 <;> simp [h, Player.bumpMate]

/-- Effect of the outer update_team_lists loop on teammate counters. -/
theorem utlPureGo_teammates (full : List String) (part : List String) :
    ∀ (st : AggState) (r q : String),
      ((utlPureGo full part st).data r).teammates q =
        ((st.data r).teammates q) + countOcc r part * countOcc q (remove_player r full) := by
  induction part with
  | nil => intro st r q; simp [utlPureGo, countOcc]
  | cons p2 ps ih =>
    intro st r q
    rw [utlPureGo, List.foldl_cons, ← utlPureGo, ih, bumpOthersPure_teammates]
    by_cases hr : r = p2
    · subst hr
      simp [countOcc]
      ring
    · have hpr : ¬ p2 = r := fun h => hr h.symm
      simp [hr, hpr, countOcc]

/-- The update_team_lists loops do not touch stats. -/
theorem utlPureGo_stats (full : List String) (part : List String) (st : AggState) (p : String) :
    ((utlPureGo full part st).data p).stats = ((st.data p)).stats := by
  refine foldl_data_pres _ (fun pl => pl.stats) ?_ part st p
  intro s a q
  simp only [bumpOthersPure_stats]

/-- Occurrence count after remove_player: zero for the removed name, unchanged
for every other name. -/
theorem countOcc_remove (r q : String) : ∀ (l : List String),
    countOcc q (remove_player r l) = if q = r then 0 else countOcc q l := by
  intro l
  induction l with
  | nil => simp [remove_player, countOcc]
  | cons a l ih =>
    rw [remove_player]
    by_cases ha : a = r
    · subst ha
      rw [if_pos rfl, ih]
      by_cases hq : q = a
      · simp [hq]
      · have haq : ¬ a = q := fun h => hq h.symm
        simp [hq, haq, countOcc]
    · rw [if_neg ha, countOcc, ih]
      by_cases hq : q = r
      · subst hq
        have haq : ¬ a = q := fun h => ha h
        simp [haq, ha, countOcc]
      · simp [hq, countOcc]

/-- Bind on a successful Except computation. -/
theorem ex_bind_ok {α β : Type} (a : α) (f : α → Except AggError β) :
    (Except.ok a >>= f) = f a := rfl

/-- Bind on a failed Except computation. -/
theorem ex_bind_err {α β : Type} (e : AggError) (f : α → Except AggError β) :
    ((Except.error e : Except AggError α) >>= f) = .error e := rfl

/-- add_win on a game name that has an internal key and a nonnegative amount. -/
theorem add_win_ok (game c : String) (team : List String) (amt : Int) (st : AggState)
    (hc : lookupGameType game = some c) (ha : 0 ≤ amt) :
    add_win game team amt st = .ok (addWinPure c amt.toNat team st) := by
  unfold add_win
  rw [hc]
  simp [not_lt.mpr ha]

/-- add_loss on a game name that has an internal key and a nonnegative amount. -/
theorem add_loss_ok (game c : String) (team : List String) (amt : Int) (st : AggState)
    (hc : lookupGameType game = some c) (ha : 0 ≤ amt) :
    add_loss game team amt st = .ok (addLossPure c amt.toNat team st) := by
  unfold add_loss
  rw [hc]
  simp [not_lt.mpr ha]

/-- add_win raises on a game name outside GAME_TYPES. -/
theorem add_win_none (game : String) (team : List String) (amt : Int) (st : AggState)
    (hc : lookupGameType game = none) :
    add_win game team amt st = .error (.unknownCategory game) := by
  unfold add_win
  rw [hc]

/-- add_loss raises on a game name outside GAME_TYPES. -/
theorem add_loss_none (game : String) (team : List String) (amt : Int) (st : AggState)
    (hc : lookupGameType game = none) :
    add_loss game team amt st = .error (.unknownCategory game) := by
  unfold add_loss
  rw [hc]

/-- Specialisation of add_win to the literal Days call of parse_days. -/
theorem add_win_days (team : List String) (st : AggState) :
    add_win "Days" team 1 st = .ok (addWinPure "days" 1 team st) :=
  add_win_ok "Days" "days" team 1 st (by decide) (by decide)

/-- Specialisation of add_loss to the literal Days call of parse_days. -/
theorem add_loss_days (team : List String) (st : AggState) :
    add_loss "Days" team 1 st = .ok (addLossPure "days" 1 team st) :=
  add_loss_ok "Days" "days" team 1 st (by decide) (by decide)

/-- Specialisation of add_win to the literal Games calls of parse_days. -/
theorem add_win_games (team : List String) (k : Nat) (st : AggState) :
    add_win "Games" team (k : Int) st = .ok (addWinPure "games" k team st) := by
  have h := add_win_ok "Games" "games" team (k : Int) st (by decide) (Int.natCast_nonneg k)
  rwa [Int.toNat_natCast] at h

/-- Specialisation of add_loss to the literal Games calls of parse_days. -/
theorem add_loss_games (team : List String) (k : Nat) (st : AggState) :
    add_loss "Games" team (k : Int) st = .ok (addLossPure "games" k team st) := by
  have h := add_loss_ok "Games" "games" team (k : Int) st (by decide) (Int.natCast_nonneg k)
  rwa [Int.toNat_natCast] at h

/-- A successful inner teammate loop equals its pure image. -/
theorem bumpOthers_ok (p2 : String) (os : List String) :
    ∀ (st st2 : AggState), bumpOthers p2 os st = .ok st2 → st2 = bumpOthersPure p2 os st := by
  induction os with
  | nil =>
    intro st st2 h
    simp only [bumpOthers, Except.ok.injEq] at h
    subst h
    rfl
  | cons o os ih =>
    intro st st2 h
    rw [bumpOthers] at h
    by_cases hc : player_names.contains o
    · rw [if_pos hc] at h
      rw [ih _ _ h]
      rfl
    · rw [if_neg hc] at h
      exact Except.noConfusion h

/-- The inner teammate loop succeeds when every accessed key exists. -/
theorem bumpOthers_ok_of (p2 : String) (os : List String)
    (hall : ∀ o ∈ os, player_names.contains o = true) :
    ∀ st, bumpOthers p2 os st = .ok (bumpOthersPure p2 os st) := by
  induction os with
  | nil => intro st; rfl
  | cons o os ih =>
    intro st
    rw [bumpOthers, if_pos (hall o (by simp))]
    have hstep : bumpOthersPure p2 (o :: os) st
        = bumpOthersPure p2 os (st.modifyPlayer p2 (Player.bumpMate o)) := by
      rw [bumpOthersPure, List.foldl_cons, ← bumpOthersPure]
    rw [hstep]
    exact ih (fun o2 h2 => hall o2 (by simp [h2])) _

/-- Any error of the inner teammate loop is a KeyError on an unknown name. -/
theorem bumpOthers_err_shape (p2 : String) (os : List String) :
    ∀ st e, bumpOthers p2 os st = .error e →
      ∃ n, e = .keyError n ∧ player_names.contains n = false := by
  induction os with
  | nil => intro st e h; exact Except.noConfusion h
  | cons o os ih =>
    intro st e h
    rw [bumpOthers] at h
    by_cases hc : player_names.contains o
    · rw [if_pos hc] at h
      exact ih _ _ h
    · rw [if_neg hc] at h
      have hcf : player_names.contains o = false := by
        cases hco : player_names.contains o with
        | false => rfl
        | true => exact absurd hco hc
      refine ⟨o, ?_, hcf⟩
      cases h
      rfl

/-- The inner teammate loop fails when some accessed key is missing. -/
theorem bumpOthers_err (p2 : String) (os : List String) :
    (∃ o ∈ os, player_names.contains o = false) →
    ∀ st, ∃ e, bumpOthers p2 os st = .error e := by
  induction os with
  | nil => intro hex; simp at hex
  | cons o os ih =>
    intro hex st
    rw [bumpOthers]
    by_cases hc : player_names.contains o
    · rw [if_pos hc]
      rcases hex with ⟨o2, ho2, hno2⟩
      rcases List.mem_cons.mp ho2 with h | h
      · rw [h] at hno2; rw [hno2] at hc; exact Bool.noConfusion hc
      · exact ih ⟨o2, h, hno2⟩ _
    · rw [if_neg hc]
      exact ⟨.keyError o, rfl⟩

/-- A successful outer teammate loop equals its pure image. -/
theorem utlGo_ok (full : List String) : ∀ (part : List String) (st st2 : AggState),
    utlGo full part st = .ok st2 → st2 = utlPureGo full part st := by
  intro part
  induction part with
  | nil =>
    intro st st2 h
    simp only [utlGo, Except.ok.injEq] at h
    subst h
    rfl
  | cons p2 ps ih =>
    intro st st2 h
    rw [utlGo] at h
    cases hb : bumpOthers p2 (remove_player p2 full) st with
    | error e => rw [hb] at h; exact Except.noConfusion h
    | ok stm =>
      rw [hb] at h
      have hstep : utlPureGo full (p2 :: ps) st
          = utlPureGo full ps (bumpOthersPure p2 (remove_player p2 full) st) := by
        rw [utlPureGo, List.foldl_cons, ← utlPureGo]
      rw [hstep, ih _ _ h, bumpOthers_ok _ _ _ _ hb]

/-- The outer teammate loop succeeds when every accessed key exists. -/
theorem utlGo_ok_of (full : List String) :
    ∀ (part : List String),
      (∀ p2 ∈ part, ∀ o ∈ remove_player p2 full, player_names.contains o = true) →
      ∀ st, utlGo full part st = .ok (utlPureGo full part st) := by
  intro part
  induction part with
  | nil => intro _ st; rfl
  | cons p2 ps ih =>
    intro hall st
    rw [utlGo, bumpOthers_ok_of p2 _ (hall p2 (by simp)) st]
    have hstep : utlPureGo full (p2 :: ps) st
        = utlPureGo full ps (bumpOthersPure p2 (remove_player p2 full) st) := by
      rw [utlPureGo, List.foldl_cons, ← utlPureGo]
    rw [hstep]
    exact ih (fun q hq o ho => hall q (by simp [hq]) o ho) _

/-- The outer teammate loop fails with a KeyError on an unknown name whenever
some iteration accesses a missing key. -/
theorem utlGo_err (full : List String) : ∀ (part : List String) (st : AggState),
    (∃ p2 ∈ part, ∃ o ∈ remove_player p2 full, player_names.contains o = false) →
    ∃ n, utlGo full part st = .error (.keyError n) ∧ player_names.contains n = false := by
  intro part
  induction part with
  | nil => intro st hex; simp at hex
  | cons p2 ps ih =>
    intro st hex
    rw [utlGo]
    cases hb : bumpOthers p2 (remove_player p2 full) st with
    | error e =>
      rcases bumpOthers_err_shape p2 _ _ _ hb with ⟨n, he, hn⟩
      exact ⟨n, by rw [he], hn⟩
    | ok stm =>
      rcases hex with ⟨q, hq, o, ho, hno⟩
      rcases List.mem_cons.mp hq with h | h
      · subst h
        rcases bumpOthers_err q _ ⟨o, ho, hno⟩ st with ⟨e, he⟩
        rw [he] at hb
        exact Except.noConfusion hb
      · exact ih stm ⟨q, h, o, ho, hno⟩

/-- A successful update_team_lists equals its pure image. -/
theorem update_team_lists_ok (team : List String) (st st2 : AggState)
    (h : update_team_lists team st = .ok st2) : st2 = utlPure team st := by
  rw [update_team_lists] at h
  by_cases hne : team = []
  · rw [if_pos hne] at h; exact Except.noConfusion h
  · rw [if_neg hne] at h
    exact utlGo_ok team team st st2 h

/-- update_team_lists succeeds on a nonempty team whose accesses all hit
existing keys. -/
theorem update_team_lists_ok_of (team : List String) (st : AggState)
    (hne : team ≠ []) (hk : teamKeysOk team = true) :
    update_team_lists team st = .ok (utlPure team st) := by
  rw [update_team_lists, if_neg hne]
  refine utlGo_ok_of team team ?_ st
  intro p2 hp2 o ho
  rw [teamKeysOk, List.all_eq_true] at hk
  have h2 := hk p2 hp2
  rw [List.all_eq_true] at h2
  exact h2 o ho

/-- A name different from the removed one survives remove_player. -/
theorem mem_remove_player (p2 o : String) (hne : o ≠ p2) :
    ∀ l : List String, o ∈ l → o ∈ remove_player p2 l := by
  intro l
  induction l with
  | nil => intro h; exact absurd h (by simp)
  | cons a l ih =>
    intro h
    rw [remove_player]
    rcases List.mem_cons.mp h with h2 | h2
    · subst h2
      rw [if_neg hne]
      exact List.mem_cons_self o _
    · by_cases ha : a = p2
      · rw [if_pos ha]; exact ih h2
      · rw [if_neg ha]; exact List.mem_cons_of_mem a (ih h2)

/-- update_team_lists fails with a KeyError on an unknown name whenever an
unknown name shares the team with a player of a different name. -/
theorem update_team_lists_err (team : List String) (st : AggState) (o p2 : String)
    (ho : o ∈ team) (hno : player_names.contains o = false)
    (hp : p2 ∈ team) (hne : p2 ≠ o) :
    ∃ n, update_team_lists team st = .error (.keyError n) ∧
      player_names.contains n = false := by
  have hteam : team ≠ [] := by intro h; rw [h] at ho; exact absurd ho (by simp)
  rw [update_team_lists, if_neg hteam]
  exact utlGo_err team team st
    ⟨p2, hp, o, mem_remove_player p2 o (fun hh => hne hh.symm) team ho, hno⟩

/-- gameStep on a game whose name has an internal key. -/
theorem gameStep_some (d : Day) (st : AggState) (g : Game) (c : String)
    (hl : lookupGameType g.name = some c) :
    gameStep d st g =
      addLossPure c (gameOutcome d g).wScore (gameOutcome d g).losers
        (addWinPure c (gameOutcome d g).lScore (gameOutcome d g).losers
          (addLossPure c (gameOutcome d g).lScore (gameOutcome d g).winners
            (addWinPure c (gameOutcome d g).wScore (gameOutcome d g).winners st))) := by
  unfold gameStep
  rw [hl]

/-- A successful per-game loop equals the fold of its pure image. -/
theorem gamesGo_ok (d : Day) : ∀ (gs : List Game) (st st2 : AggState),
    gamesGo d gs st = .ok st2 → st2 = gs.foldl (gameStep d) st := by
  intro gs
  induction gs with
  | nil =>
    intro st st2 h
    simp only [gamesGo, Except.ok.injEq] at h
    subst h
    rfl
  | cons g gs ih =>
    intro st st2 h
    rw [gamesGo] at h
    cases hl : lookupGameType g.name with
    | none =>
      rw [add_win_none _ _ _ _ hl, ex_bind_err] at h
      exact Except.noConfusion h
    | some c =>
      have e1 := add_win_ok g.name c (gameOutcome d g).winners ((gameOutcome d g).wScore : Int)
        st hl (Int.natCast_nonneg _)
      have e2 := add_loss_ok g.name c (gameOutcome d g).winners ((gameOutcome d g).lScore : Int)
        (addWinPure c (gameOutcome d g).wScore (gameOutcome d g).winners st) hl
        (Int.natCast_nonneg _)
      rw [Int.toNat_natCast] at e1 e2
      rw [e1, ex_bind_ok, e2, ex_bind_ok] at h
      have e3 := add_win_ok g.name c (gameOutcome d g).losers ((gameOutcome d g).lScore : Int)
        (addLossPure c (gameOutcome d g).lScore (gameOutcome d g).winners
          (addWinPure c (gameOutcome d g).wScore (gameOutcome d g).winners st)) hl
        (Int.natCast_nonneg _)
      rw [Int.toNat_natCast] at e3
      rw [e3, ex_bind_ok] at h
      have e4 := add_loss_ok g.name c (gameOutcome d g).losers ((gameOutcome d g).wScore : Int)
        (addWinPure c (gameOutcome d g).lScore (gameOutcome d g).losers
          (addLossPure c (gameOutcome d g).lScore (gameOutcome d g).winners
            (addWinPure c (gameOutcome d g).wScore (gameOutcome d g).winners st))) hl
        (Int.natCast_nonneg _)
      rw [Int.toNat_natCast] at e4
      rw [e4, ex_bind_ok] at h
      rw [List.foldl_cons, ih _ _ h, gameStep_some d st g c hl]

/-- Splitting a successful parse_day run into its sequential pieces. -/
theorem parse_day_decomp (st : AggState) (d : Day) (st2 : AggState)
    (h : parse_day st d = .ok st2) :
    ∃ s1 s2, update_team_lists d.team1 st = .ok s1 ∧ update_team_lists d.team2 s1 = .ok s2 ∧
      st2 = d.games.foldl (gameStep d) (dayAward d s2) := by
  unfold parse_day at h
  cases hu1 : update_team_lists d.team1 st with
  | error e => rw [hu1, ex_bind_err] at h; exact Except.noConfusion h
  | ok s1 =>
    rw [hu1, ex_bind_ok] at h
    cases hu2 : update_team_lists d.team2 s1 with
    | error e => rw [hu2, ex_bind_err] at h; exact Except.noConfusion h
    | ok s2 =>
      rw [hu2, ex_bind_ok, add_win_days, ex_bind_ok, add_loss_days, ex_bind_ok,
        add_win_games, ex_bind_ok, add_loss_games, ex_bind_ok,
        add_win_games, ex_bind_ok, add_loss_games, ex_bind_ok] at h
      exact ⟨s1, s2, rfl, hu2, gamesGo_ok d d.games _ st2 h⟩

/-- Effect of one pure game step on every stats counter. -/
theorem gameStep_stats (d : Day) (g : Game) (st : AggState) (p c2 : String) :
    ((gameStep d st g).data p).stats c2 =
      ⟨((st.data p).stats c2).wins +
        (if lookupGameType g.name = some c2 then
          countOcc p (gameOutcome d g).winners * (gameOutcome d g).wScore
            + countOcc p (gameOutcome d g).losers * (gameOutcome d g).lScore
        else 0),
       ((st.data p).stats c2).losses +
        (if lookupGameType g.name = some c2 then
          countOcc p (gameOutcome d g).winners * (gameOutcome d g).lScore
            + countOcc p (gameOutcome d g).losers * (gameOutcome d g).wScore
        else 0)⟩ := by
  cases hl : lookupGameType g.name with
  | none =>
    unfold gameStep
    rw [hl]
    simp
  | some c =>
    rw [gameStep_some d st g c hl]
    simp only [addWinPure_stats, addLossPure_stats]
    by_cases hc : c2 = c
    · subst hc
      simp [GameStats.mk.injEq]
      constructor
      · ring
      · ring
    · have hcc : ¬ (some c = some c2) := by
        intro hh
        exact hc (Option.some.injEq c c2 ▸ hh).symm
      simp [hc, hcc]
  
/-- One pure game step does not touch teammate dictionaries. -/
theorem gameStep_teammates (d : Day) (g : Game) (st : AggState) (p : String) :
    ((gameStep d st g).data p).teammates = ((st.data p)).teammates := by
  cases hl : lookupGameType g.name with
  | none => unfold gameStep; rw [hl]
  | some c =>
    rw [gameStep_some d st g c hl]
    simp only [addWinPure_teammates, addLossPure_teammates]

/-- Effect of the fold of pure game steps on every stats counter. -/
theorem foldGameStep_stats (d : Day) : ∀ (gs : List Game) (st : AggState) (p c2 : String),
    ((gs.foldl (gameStep d) st).data p).stats c2 =
      ⟨((st.data p).stats c2).wins + subWins d p c2 gs,
       ((st.data p).stats c2).losses + subLosses d p c2 gs⟩ := by
  intro gs
  induction gs with
  | nil => intro st p c2; simp [subWins, subLosses]
  | cons g gs ih =>
    intro st p c2
    rw [List.foldl_cons, ih, gameStep_stats]
    simp only [subWins, subLosses, List.map_cons, List.sum_cons]
    simp [GameStats.mk.injEq, Nat.add_assoc]

/-- The fold of pure game steps does not touch teammate dictionaries. -/
theorem foldGameStep_teammates (d : Day) (gs : List Game) (st : AggState) (p : String) :
    ((gs.foldl (gameStep d) st).data p).teammates = ((st.data p)).teammates := by
  refine foldl_data_pres _ (fun pl => pl.teammates) ?_ gs st p
  intro s a q
  simp only [gameStep_teammates]

/-- Effect of the six pure day-level awards on every stats counter. -/
theorem dayAward_stats (d : Day) (st : AggState) (p c2 : String) :
    ((dayAward d st).data p).stats c2 =
      ⟨((st.data p).stats c2).wins + dayWinsDelta d p c2,
       ((st.data p).stats c2).losses + dayLossDelta d p c2⟩ := by
  unfold dayAward dayWinsDelta dayLossDelta
  simp only [addWinPure_stats, addLossPure_stats]
  by_cases h1 : c2 = "days"
  · have h2 : ¬ c2 = "games" := by subst h1; decide
    simp [h1, h2]
  · by_cases h2 : c2 = "games"
    · simp [h1, h2, GameStats.mk.injEq]
      constructor
      · ring
      · ring
    · simp [h1, h2]

/-- The six pure day-level awards do not touch teammate dictionaries. -/
theorem dayAward_teammates (d : Day) (st : AggState) (p : String) :
    ((dayAward d st).data p).teammates = ((st.data p)).teammates := by
  unfold dayAward
  simp only [addWinPure_teammates, addLossPure_teammates]

/-- Teammate effect of a successful update_team_lists, stated on utlPure. -/
theorem utlPure_teammates (team : List String) (st : AggState) (r q : String) :
    ((utlPure team st).data r).teammates q =
      ((st.data r).teammates q) + countOcc r team * countOcc q (remove_player r team) := by
  rw [utlPure]
  exact utlPureGo_teammates team team st r q

/-- Stats functions of every player after a successful parse_day, in terms of
the state before it. -/
theorem parse_day_stats (st st2 : AggState) (d : Day) (h : parse_day st d = .ok st2)
    (p c2 : String) :
    (st2.data p).stats c2 =
      ⟨((st.data p).stats c2).wins + dayWinsDelta d p c2 + subWins d p c2 d.games,
       ((st.data p).stats c2).losses + dayLossDelta d p c2 + subLosses d p c2 d.games⟩ := by
  rcases parse_day_decomp st d st2 h with ⟨s1, s2, hu1, hu2, hst⟩
  have e1 := update_team_lists_ok _ _ _ hu1
  have e2 := update_team_lists_ok _ _ _ hu2
  subst hst
  subst e2
  subst e1
  rw [foldGameStep_stats, dayAward_stats]
  have hs2 : ∀ pp : String,
      ((utlPure d.team2 (utlPure d.team1 st)).data pp).stats = ((st.data pp)).stats := by
    intro pp
    rw [utlPure, utlPureGo_stats, utlPure, utlPureGo_stats]
  rw [hs2]

/-- Teammate counters of every player after a successful parse_day. -/
theorem parse_day_teammates (st st2 : AggState) (d : Day) (h : parse_day st d = .ok st2)
    (r q : String) :
    (st2.data r).teammates q =
      (st.data r).teammates q
        + countOcc r d.team1 * countOcc q (remove_player r d.team1)
        + countOcc r d.team2 * countOcc q (remove_player r d.team2) := by
  rcases parse_day_decomp st d st2 h with ⟨s1, s2, hu1, hu2, hst⟩
  have e1 := update_team_lists_ok _ _ _ hu1
  have e2 := update_team_lists_ok _ _ _ hu2
  subst hst
  subst e2
  subst e1
  rw [foldGameStep_teammates, dayAward_teammates, utlPure, utlPureGo_teammates,
    utlPure, utlPureGo_teammates]

/-- Splitting a successful parse_days run at its first day. -/
theorem parse_days_cons (d : Day) (ds : List Day) (st st2 : AggState)
    (h : parse_days (d :: ds) st = .ok st2) :
    ∃ st1, parse_day st d = .ok st1 ∧ parse_days ds st1 = .ok st2 := by
  rw [parse_days] at h
  cases hd : parse_day st d with
  | error e => rw [hd] at h; exact Except.noConfusion h
  | ok st1 => rw [hd] at h; exact ⟨st1, rfl, h⟩

/-- A sub-game display name never maps to the internal key of the synthetic
Days or Games categories. -/
theorem lookup_ne_synth (n : String) (hn : n ∈ subGameNames) (c2 : String)
    (hc : c2 = "days" ∨ c2 = "games") : lookupGameType n ≠ some c2 := by
  simp [subGameNames] at hn
  rcases hc with hc | hc <;> subst hc <;>
    rcases hn with h | h | h | h | h | h <;> subst h <;> decide

/-- Sub-games drawn from the six sub-game types contribute nothing to the
synthetic Days and Games categories. -/
theorem subWins_synth_zero (d : Day) (p : String) (c2 : String)
    (hc : c2 = "days" ∨ c2 = "games") :
    ∀ gs : List Game, (∀ g ∈ gs, g.name ∈ subGameNames) →
      subWins d p c2 gs = 0 ∧ subLosses d p c2 gs = 0 := by
  intro gs
  induction gs with
  | nil => intro _; simp [subWins, subLosses]
  | cons g gs ih =>
    intro hg
    have hne := lookup_ne_synth g.name (hg g (by simp)) c2 hc
    have hrest := ih (fun g2 h2 => hg g2 (by simp [h2]))
    simp only [subWins, subLosses, List.map_cons, List.sum_cons] at *
    simp [hne, hrest.1, hrest.2]

/-- Day-level wins delta at the Games category. -/
theorem dayWinsDelta_games (d : Day) (p : String) :
    dayWinsDelta d p "games"
      = countOcc p (dayOutcome d).winners * (dayOutcome d).wScore
        + countOcc p (dayOutcome d).losers * (dayOutcome d).lScore := by
  rw [dayWinsDelta, if_neg (by decide : ¬ ("games" : String) = "days"), if_pos rfl,
    Nat.zero_add]

/-- Day-level losses delta at the Games category. -/
theorem dayLossDelta_games (d : Day) (p : String) :
    dayLossDelta d p "games"
      = countOcc p (dayOutcome d).winners * (dayOutcome d).lScore
        + countOcc p (dayOutcome d).losers * (dayOutcome d).wScore := by
  rw [dayLossDelta, if_neg (by decide : ¬ ("games" : String) = "days"), if_pos rfl,
    Nat.zero_add]

/-- Day-level wins delta at the Days category. -/
theorem dayWinsDelta_days (d : Day) (p : String) :
    dayWinsDelta d p "days" = countOcc p (dayOutcome d).winners := by
  rw [dayWinsDelta, if_pos rfl, if_neg (by decide : ¬ ("days" : String) = "games"),
    Nat.add_zero]

/-- Day-level losses delta at the Days category. -/
theorem dayLossDelta_days (d : Day) (p : String) :
    dayLossDelta d p "days" = countOcc p (dayOutcome d).losers := by
  rw [dayLossDelta, if_pos rfl, if_neg (by decide : ¬ ("days" : String) = "games"),
    Nat.add_zero]

/-- The day-level awards leave every other category untouched. -/
theorem dayDelta_other (d : Day) (p c : String) (h1 : ¬ c = "days") (h2 : ¬ c = "games") :
    dayWinsDelta d p c = 0 ∧ dayLossDelta d p c = 0 := by
  rw [dayWinsDelta, dayLossDelta, if_neg h1, if_neg h1, if_neg h2, if_neg h2]
  exact ⟨rfl, rfl⟩

/-- Claim C1: for every day the aggregation engine processes, the Games
category and every sub-game category are awarded point-weighted. The count
formulation specialises to the claim: a player appearing once on the winning
roster and not on the losing roster gains the winning day score as Games wins
and the losing day score as Games losses; the losing roster gets the mirror
image; and every sub-game pays into its own category with its own scores under
the same rule, through subWins and subLosses. -/
theorem c1_point_weighted_awards (st st2 : AggState) (d : Day) (p : String)
    (h : parse_day st d = .ok st2)
    (hg : ∀ g ∈ d.games, g.name ∈ subGameNames) :
    (((st2.data p).stats "games").wins
        = ((st.data p).stats "games").wins
          + countOcc p (dayOutcome d).winners * (dayOutcome d).wScore
          + countOcc p (dayOutcome d).losers * (dayOutcome d).lScore
      ∧ ((st2.data p).stats "games").losses
        = ((st.data p).stats "games").losses
          + countOcc p (dayOutcome d).winners * (dayOutcome d).lScore
          + countOcc p (dayOutcome d).losers * (dayOutcome d).wScore)
    ∧ ∀ c ∈ subGameKeys,
        ((st2.data p).stats c).wins = ((st.data p).stats c).wins + subWins d p c d.games
        ∧ ((st2.data p).stats c).losses
          = ((st.data p).stats c).losses + subLosses d p c d.games := by
  constructor
  · have hgames := parse_day_stats st st2 d h p "games"
    rcases subWins_synth_zero d p "games" (Or.inr rfl) d.games hg with ⟨hw, hl⟩
    rw [hgames]
    constructor
    · show ((st.data p).stats "games").wins + dayWinsDelta d p "games"
          + subWins d p "games" d.games = _
      rw [dayWinsDelta_games, hw, Nat.add_zero, Nat.add_assoc]
    · show ((st.data p).stats "games").losses + dayLossDelta d p "games"
          + subLosses d p "games" d.games = _
      rw [dayLossDelta_games, hl, Nat.add_zero, Nat.add_assoc]
  · intro c hc
    have hstats := parse_day_stats st st2 d h p c
    have hne : ¬ c = "days" ∧ ¬ c = "games" := by
      simp [subGameKeys] at hc
      rcases hc with h2 | h2 | h2 | h2 | h2 | h2 <;> subst h2 <;> exact ⟨by decide, by decide⟩
    rcases dayDelta_other d p c hne.1 hne.2 with ⟨hdw, hdl⟩
    rw [hstats]
    constructor
    · show ((st.data p).stats c).wins + dayWinsDelta d p c + subWins d p c d.games = _
      rw [hdw, Nat.add_zero]
    · show ((st.data p).stats c).losses + dayLossDelta d p c + subLosses d p c d.games = _
      rw [hdl, Nat.add_zero]

/-- Witness for claim C1: on the concrete day c1day, Aaron (winning the day
2-1 and losing its PK sub-game 1-3) ends with Games 2-1 and PK 1-3. -/
theorem c1_point_weighted_awards_witness :
    statsAfterDay initState c1day "Aaron" "games" = some ⟨2, 1⟩
    ∧ statsAfterDay initState c1day "Aaron" "pk" = some ⟨1, 3⟩ := by
  cases hh : parse_day initState c1day with
  | error e =>
    have hok : exIsOk (parse_day initState c1day) = true := by decide
    rw [hh] at hok
    simp [exIsOk] at hok
  | ok st2 =>
    obtain ⟨⟨hw, hl⟩, hsub⟩ :=
      c1_point_weighted_awards initState st2 c1day "Aaron" hh (by decide)
    obtain ⟨hpw, hpl⟩ := hsub "pk" (by decide)
    have h1 : ((st2.data "Aaron").stats "games").wins = 2 := by rw [hw]; decide
    have h2 : ((st2.data "Aaron").stats "games").losses = 1 := by rw [hl]; decide
    have h3 : ((st2.data "Aaron").stats "pk").wins = 1 := by rw [hpw]; decide
    have h4 : ((st2.data "Aaron").stats "pk").losses = 3 := by rw [hpl]; decide
    have e1 : (st2.data "Aaron").stats "games" = ⟨2, 1⟩ := by
      rw [show (st2.data "Aaron").stats "games"
          = ⟨((st2.data "Aaron").stats "games").wins,
             ((st2.data "Aaron").stats "games").losses⟩ from rfl, h1, h2]
    have e2 : (st2.data "Aaron").stats "pk" = ⟨1, 3⟩ := by
      rw [show (st2.data "Aaron").stats "pk"
          = ⟨((st2.data "Aaron").stats "pk").wins,
             ((st2.data "Aaron").stats "pk").losses⟩ from rfl, h3, h4]
    constructor
    · rw [statsAfterDay, hh]
      exact congrArg some e1
    · rw [statsAfterDay, hh]
      exact congrArg some e2

/-- Claim C2: outcome resolution awards the win to the side with the strictly
greater score and resolves a tie to side 2, and parse_days applies this same
rule (resolveOutcome) both to the day score and to every sub-game score; on a
tie day the team 2 roster observably receives the Days wins. -/
theorem c2_outcome_resolution (st st2 : AggState) (d : Day) (p : String)
    (h : parse_day st d = .ok st2)
    (hg : ∀ g ∈ d.games, g.name ∈ subGameNames) :
    dayOutcome d = resolveOutcome d.team1 d.team2 d.team1_score d.team2_score
    ∧ (∀ g ∈ d.games,
        gameOutcome d g = resolveOutcome d.team1 d.team2 g.team1_score g.team2_score)
    ∧ (∀ (t1 t2 : List String) (s1 s2 : Nat),
        (s2 < s1 → resolveOutcome t1 t2 s1 s2 = ⟨t1, t2, s1, s2⟩)
        ∧ (s1 ≤ s2 → resolveOutcome t1 t2 s1 s2 = ⟨t2, t1, s2, s1⟩))
    ∧ (d.team1_score = d.team2_score →
        ((st2.data p).stats "days").wins
            = ((st.data p).stats "days").wins + countOcc p d.team2
          ∧ ((st2.data p).stats "days").losses
            = ((st.data p).stats "days").losses + countOcc p d.team1) := by
  refine ⟨rfl, fun g _ => rfl, ?_, ?_⟩
  · intro t1 t2 s1 s2
    constructor
    · intro hlt
      rw [resolveOutcome, if_pos hlt]
    · intro hle
      rw [resolveOutcome, if_neg (not_lt.mpr hle)]
  · intro htie
    have hstats := parse_day_stats st st2 d h p "days"
    rcases subWins_synth_zero d p "days" (Or.inl rfl) d.games hg with ⟨hw, hl⟩
    have houtc : dayOutcome d = ⟨d.team2, d.team1, d.team2_score, d.team1_score⟩ := by
      rw [dayOutcome, if_neg (by rw [htie]; exact lt_irrefl _)]
    rw [hstats]
    constructor
    · show ((st.data p).stats "days").wins + dayWinsDelta d p "days"
          + subWins d p "days" d.games = _
      rw [dayWinsDelta_days, hw, Nat.add_zero, houtc]
    · show ((st.data p).stats "days").losses + dayLossDelta d p "days"
          + subLosses d p "days" d.games = _
      rw [dayLossDelta_days, hl, Nat.add_zero, houtc]

/-- Witness for claim C2: on the concrete tie day c2day (3-3), the team 2
player Anthony receives the Days win and the team 1 players the Days loss. -/
theorem c2_outcome_resolution_witness :
    statsAfterDay initState c2day "Anthony" "days" = some ⟨1, 0⟩
    ∧ statsAfterDay initState c2day "Aaron" "days" = some ⟨0, 1⟩ := by
  cases hh : parse_day initState c2day with
  | error e =>
    have hok : exIsOk (parse_day initState c2day) = true := by decide
    rw [hh] at hok
    simp [exIsOk] at hok
  | ok st2 =>
    obtain ⟨-, -, -, htie⟩ :=
      c2_outcome_resolution initState st2 c2day "Anthony" hh (by decide)
    obtain ⟨-, -, -, htie2⟩ :=
      c2_outcome_resolution initState st2 c2day "Aaron" hh (by decide)
    obtain ⟨ha1, ha2⟩ := htie (by decide)
    obtain ⟨hb1, hb2⟩ := htie2 (by decide)
    have e1 : (st2.data "Anthony").stats "days" = ⟨1, 0⟩ := by
      rw [show (st2.data "Anthony").stats "days"
          = ⟨((st2.data "Anthony").stats "days").wins,
             ((st2.data "Anthony").stats "days").losses⟩ from rfl]
      rw [ha1, ha2]
      decide
    have e2 : (st2.data "Aaron").stats "days" = ⟨0, 1⟩ := by
      rw [show (st2.data "Aaron").stats "days"
          = ⟨((st2.data "Aaron").stats "days").wins,
             ((st2.data "Aaron").stats "days").losses⟩ from rfl]
      rw [hb1, hb2]
      decide
    constructor
    · rw [statsAfterDay, hh]
      exact congrArg some e1
    · rw [statsAfterDay, hh]
      exact congrArg some e2

/-- Counterexample to claim C4 as stated: on the 2-versus-1 day c4day with
score 2-1, the Games points accumulated over every player of both rosters sum
to 9, not to team1_score + team2_score = 3. -/
theorem c4_conservation_counterexample :
    gamesTotalAfter initState c4day = some 9
    ∧ c4day.team1_score + c4day.team2_score = 3
    ∧ (9 : Nat) ≠ 3 := by decide

/-- Claim C4 amended: for every single day processed, each player accumulates
Games wins plus losses equal to team1_score + team2_score per roster
appearance, so the sum over the rosters is the roster size times the day
total, not the day total itself. -/
theorem c4_points_per_player (st st2 : AggState) (d : Day) (p : String)
    (h : parse_day st d = .ok st2)
    (hg : ∀ g ∈ d.games, g.name ∈ subGameNames) :
    ((st2.data p).stats "games").wins + ((st2.data p).stats "games").losses
      = ((st.data p).stats "games").wins + ((st.data p).stats "games").losses
        + (countOcc p d.team1 + countOcc p d.team2)
          * (d.team1_score + d.team2_score) := by
  have hstats := parse_day_stats st st2 d h p "games"
  rcases subWins_synth_zero d p "games" (Or.inr rfl) d.games hg with ⟨hw, hl⟩
  rw [hstats]
  show ((st.data p).stats "games").wins + dayWinsDelta d p "games"
        + subWins d p "games" d.games
      + (((st.data p).stats "games").losses + dayLossDelta d p "games"
        + subLosses d p "games" d.games) = _
  rw [dayWinsDelta_games, dayLossDelta_games, hw, hl, dayOutcome]
  by_cases hcmp : d.team1_score > d.team2_score
  · rw [if_pos hcmp]
    dsimp only
    ring
  · rw [if_neg hcmp]
    dsimp only
    ring

/-- Witness for the amended claim C4: on the concrete day c4day (2-1), Aaron
accumulates exactly 3 Games points. -/
theorem c4_points_per_player_witness :
    Option.map (fun gsx : GameStats => gsx.wins + gsx.losses)
      (statsAfterDay initState c4day "Aaron" "games") = some 3 := by
  cases hh : parse_day initState c4day with
  | error e =>
    have hok : exIsOk (parse_day initState c4day) = true := by decide
    rw [hh] at hok
    simp [exIsOk] at hok
  | ok st2 =>
    have hc := c4_points_per_player initState st2 c4day "Aaron" hh (by decide)
    have hval : ((st2.data "Aaron").stats "games").wins
        + ((st2.data "Aaron").stats "games").losses = 3 := by
      rw [hc]
      decide
    rw [statsAfterDay, hh]
    show some (((st2.data "Aaron").stats "games").wins
        + ((st2.data "Aaron").stats "games").losses) = some 3
    exact congrArg some hval

/-- Claim C5: after any aggregation run that starts from a state with a
symmetric teammate table (in particular the zeroed registry), the teammate
co-occurrence table stays symmetric for every pair of players. -/
theorem c5_teammate_symmetry (days : List Day) (st st2 : AggState)
    (h : parse_days days st = .ok st2)
    (hsym : ∀ p q, (st.data p).teammates q = (st.data q).teammates p) :
    ∀ p q, (st2.data p).teammates q = (st2.data q).teammates p := by
  induction days generalizing st with
  | nil =>
    simp only [parse_days, Except.ok.injEq] at h
    subst h
    exact hsym
  | cons d ds ih =>
    rcases parse_days_cons d ds st st2 h with ⟨st1, hd, hds⟩
    refine ih st1 hds ?_
    intro p q
    rw [parse_day_teammates st st1 d hd p q, parse_day_teammates st st1 d hd q p]
    rw [countOcc_remove, countOcc_remove, countOcc_remove, countOcc_remove]
    by_cases hpq : p = q
    · subst hpq
      simp
    · have hqp : ¬ q = p := fun hh => hpq hh.symm
      simp only [if_neg hpq, if_neg hqp]
      rw [hsym p q]
      ring

/-- Witness for claim C5: after the concrete one-day run c5days, the
co-occurrence of Aaron with AB equals the co-occurrence of AB with Aaron. -/
theorem c5_teammate_symmetry_witness :
    mateAfterDays c5days initState "Aaron" "AB" = some 1
    ∧ mateAfterDays c5days initState "AB" "Aaron" = some 1 := by
  cases hh : parse_days c5days initState with
  | error e =>
    have hv : mateAfterDays c5days initState "Aaron" "AB" = some 1 := by decide
    rw [mateAfterDays, hh] at hv
    exact Option.noConfusion hv
  | ok st2 =>
    have hsym := c5_teammate_symmetry c5days initState st2 hh
      (fun p q => rfl) "Aaron" "AB"
    have hv : mateAfterDays c5days initState "Aaron" "AB" = some 1 := by decide
    have h1 : (st2.data "Aaron").teammates "AB" = 1 := by
      rw [mateAfterDays, hh] at hv
      exact Option.some.inj hv
    constructor
    · rw [mateAfterDays, hh]
      exact congrArg some h1
    · rw [mateAfterDays, hh]
      refine congrArg some ?_
      rw [← hsym]
      exact h1

/-- One step of the read_excel row loop. -/
theorem readRows_cons (season : Option Int) (st : AggState) (days : List Day)
    (r : Row) (rs : List Row) :
    readRows season st days (r :: rs)
      = match processRow season st days r with
        | .error e => .error e
        | .ok (st2, days2) => readRows season st2 days2 rs := rfl

/-- The season pass of read_excel processes exactly the rows whose extracted
year equals the (nonzero) season, in order, as the unfiltered pass would. -/
theorem readRows_season_filter (s : Int) (hs : s ≠ 0) :
    ∀ (rows : List Row) (st : AggState) (days : List Day),
      readRows (some s) st days rows
        = readRows none st days (rows.filter (fun r => rowYear r.date == some s)) := by
  intro rows
  induction rows with
  | nil => intro st days; rfl
  | cons r rs ih =>
    intro st days
    rw [List.filter_cons]
    cases hy : rowYear r.date with
    | none =>
      have hno : ¬ (((none : Option Int) == some s) = true) := fun hh => Bool.noConfusion hh
      rw [if_neg hno]
      rw [readRows_cons]
      rw [show processRow (some s) st days r = .ok (st, days) from by rw [processRow, hy]]
      exact ih st days
    | some y =>
      by_cases hys : y = s
      · have hsel : rowSelected (some s) y = true := by
          show (s == 0 || y == s) = true
          rw [hys]
          simp
        have hyes : ((some y : Option Int) == some s) = true := by
          rw [hys]
          exact beq_self_eq_true _
        rw [if_pos hyes]
        rw [readRows_cons, readRows_cons]
        rw [show processRow (some s) st days r = processRowBody st days r from by
          rw [processRow, hy]; exact if_pos hsel]
        rw [show processRow none st days r = processRowBody st days r from by
          rw [processRow, hy]; exact if_pos rfl]
        cases hb : processRowBody st days r with
        | error e => rfl
        | ok pair =>
          obtain ⟨st2, days2⟩ := pair
          exact ih st2 days2
      · have h1 : (s == 0) = false := beq_eq_false_iff_ne.mpr hs
        have h2 : (y == s) = false := beq_eq_false_iff_ne.mpr hys
        have hsel : rowSelected (some s) y = false := by
          show (s == 0 || y == s) = false
          rw [h1, h2]
          rfl
        have hno : ¬ (((some y : Option Int) == some s) = true) :=
          fun hh => hys (by simpa using hh)
        rw [if_neg hno]
        rw [readRows_cons]
        rw [show processRow (some s) st days r = .ok (st, days) from by
          rw [processRow, hy]
          show (if rowSelected (some s) y = true then processRowBody st days r
              else Except.ok (st, days)) = Except.ok (st, days)
          rw [hsel]
          simp]
        exact ih st days

/-- Claim C3: every per-season pass starts read_excel from the freshly zeroed
registry that holds exactly the fixed known names, and the whole pass (reading
plus aggregation) equals the same pass run from that zeroed registry on
exactly the day rows whose date year is that season, so no counter from the
full-history run or another season can be carried over. -/
theorem c3_season_reset (s : Int) (hs : s ≠ 0) (rows : List Row) :
    initState.registry = player_names
    ∧ (∀ n, initState.data n = Player.initP)
    ∧ read_excel (some s) rows
        = read_excel none (rows.filter (fun r => rowYear r.date == some s))
    ∧ run_pass (some s) rows
        = run_pass none (rows.filter (fun r => rowYear r.date == some s)) := by
  have hre : read_excel (some s) rows
      = read_excel none (rows.filter (fun r => rowYear r.date == some s)) := by
    rw [read_excel, read_excel]
    exact readRows_season_filter s hs rows initState []
  refine ⟨rfl, fun n => rfl, hre, ?_⟩
  rw [run_pass, run_pass, hre]

/-- Witness for claim C3 at the concrete two-season history c3rows and the
season 2023. -/
theorem c3_season_reset_witness :
    read_excel (some 2023) c3rows
      = read_excel none (c3rows.filter (fun r => rowYear r.date == some 2023))
    ∧ run_pass (some 2023) c3rows
      = run_pass none (c3rows.filter (fun r => rowYear r.date == some 2023)) := by
  obtain ⟨-, -, h1, h2⟩ := c3_season_reset 2023 (by decide) c3rows
  exact ⟨h1, h2⟩

/-- Counterexample to claim C6 as stated: on the empty history, the
full-history output pass reaches a known player with zero recorded days and
the teammate normalization divides by zero (Python ZeroDivisionError) instead
of being well-defined for every processed player. -/
theorem c6_zero_days_counterexample :
    full_history_pipeline [] = .error .zeroDivision := by decide

/-- mapE of a pointwise successful loop body. -/
theorem mapE_ok {α β : Type} (f : α → Except AggError β) (g : α → β) :
    ∀ l : List α, (∀ a ∈ l, f a = .ok (g a)) → mapE f l = .ok (l.map g) := by
  intro l
  induction l with
  | nil => intro _; rfl
  | cons a l2 ih =>
    intro hall
    rw [mapE, hall a (by simp), ih (fun x hx => hall x (by simp [hx]))]
    rfl

/-- A record cell computation never fails on Nat counters. -/
theorem statCell_ok (wl : Nat × Nat) : statCell wl = .ok (statLineOf wl.1 wl.2) := by
  have hneg : ¬ ((wl.1 : Int) < 0 ∨ (wl.2 : Int) < 0) := by
    rintro (h | h)
    · exact absurd h (not_lt.mpr (Int.natCast_nonneg _))
    · exact absurd h (not_lt.mpr (Int.natCast_nonneg _))
  rw [statCell, update_stat, if_neg hneg]
  rfl

/-- A teammate cell computation on a player with at least one day. -/
theorem mateCell_ok (pl : Player) (n : String) (h : daysPlayed pl ≠ 0) :
    mateCell pl n = .ok (n, round3 ((pl.teammates n : ℚ) / (daysPlayed pl : ℚ))) := by
  rw [mateCell, if_neg h]

/-- The full update_excel row of a player with at least one day. -/
theorem playerRow_ok (st : AggState) (n : String) (h : daysPlayed (st.data n) ≠ 0) :
    playerRow st n = .ok (outRowOf (st.data n) n) := by
  rw [playerRow,
    mapE_ok statCell (fun wl => statLineOf wl.1 wl.2) _ (fun a _ => statCell_ok a),
    mapE_ok (mateCell (st.data n))
      (fun n2 => (n2, round3 (((st.data n).teammates n2 : ℚ) / (daysPlayed (st.data n) : ℚ))))
      player_names (fun a _ => mateCell_ok (st.data n) a h)]
  rfl

/-- Claim C6 amended: in the full-history output pass, every displayed
teammate-frequency value is the raw co-occurrence count divided by the days
played, rounded to three decimals, and the pass is well-defined provided every
registered player has at least one recorded day; a registered player with
zero days instead makes the pass fail with a ZeroDivisionError. -/
theorem c6_teammate_normalization (st : AggState)
    (h : ∀ n ∈ sortByLower st.registry, daysPlayed (st.data n) ≠ 0) :
    update_excel_full st
      = .ok ((sortByLower st.registry).map (fun n => outRowOf (st.data n) n)) := by
  rw [update_excel_full]
  exact mapE_ok (playerRow st) (fun n => outRowOf (st.data n) n) _
    (fun n hn => playerRow_ok st n (h n hn))

/-- Witness for the amended claim C6 at a concrete one-player registry where
the player has three days and three co-occurrences with AB. -/
theorem c6_teammate_normalization_witness :
    update_excel_full c6state = .ok [outRowOf c6player "Aaron"]
    ∧ (outRowOf c6player "Aaron").mates =
        player_names.map
          (fun n => (n, round3 ((c6player.teammates n : ℚ) / ((3 : Nat) : ℚ)))) := by
  constructor
  · have h := c6_teammate_normalization c6state (by decide)
    rw [h]
    rfl
  · rfl

/-- Claim C7: a score string that does not parse as two nonnegative integers
fails Game and Day construction with InvalidScoreFormat, a parsed negative
value also fails, and a successful parse stores exactly the parsed values,
never a silent default. -/
theorem c7_score_validation (name s : String) :
    (parseScore s = none → Game.build name s = .error .invalidScoreFormat
      ∧ ∀ (t1 t2 : List String) (gs : List Game),
          Day.build t1 t2 s gs = .error .invalidScoreFormat)
    ∧ (∀ a b : Int, parseScore s = some (a, b) →
        ((a < 0 ∨ b < 0) → Game.build name s = .error .invalidScoreFormat
          ∧ ∀ (t1 t2 : List String) (gs : List Game),
              Day.build t1 t2 s gs = .error .invalidScoreFormat)
        ∧ (0 ≤ a → 0 ≤ b →
            Game.build name s = .ok ⟨name, s, a.toNat, b.toNat⟩
            ∧ ∀ (t1 t2 : List String) (gs : List Game),
                Day.build t1 t2 s gs = .ok ⟨t1, t2, s, gs, a.toNat, b.toNat⟩)) := by
  constructor
  · intro hn
    constructor
    · rw [Game.build, hn]
    · intro t1 t2 gs
      rw [Day.build, hn]
  · intro a b hab
    constructor
    · intro hneg
      constructor
      · rw [Game.build, hab]
        exact if_pos hneg
      · intro t1 t2 gs
        rw [Day.build, hab]
        exact if_pos hneg
    · intro ha hb
      have hnneg : ¬ (a < 0 ∨ b < 0) := by
        rintro (h | h)
        · exact absurd h (not_lt.mpr ha)
        · exact absurd h (not_lt.mpr hb)
      constructor
      · rw [Game.build, hab]
        exact if_neg hnneg
      · intro t1 t2 gs
        rw [Day.build, hab]
        exact if_neg hnneg

/-- Witness for claim C7: the malformed score 3-x fails Game and Day
construction, and the well-formed score 2-1 stores the parsed values. -/
theorem c7_score_validation_witness :
    Game.build "Cross" "3-x" = .error .invalidScoreFormat
    ∧ Day.build ["Aaron"] ["AB"] "3-x" [] = .error .invalidScoreFormat
    ∧ Game.build "Cross" "2-1" = .ok ⟨"Cross", "2-1", 2, 1⟩ := by
  obtain ⟨hfail, -⟩ := c7_score_validation "Cross" "3-x"
  obtain ⟨hg, hd⟩ := hfail (by decide)
  obtain ⟨-, hsucc⟩ := c7_score_validation "Cross" "2-1"
  obtain ⟨-, hok⟩ := hsucc 2 1 (by decide)
  obtain ⟨hg2, -⟩ := hok (by decide) (by decide)
  exact ⟨hg, hd ["Aaron"] ["AB"] [], hg2⟩

/-- Counterexample to claim C8 as stated for the legacy Field_Days.py
implementation it also cites: add_win with an unknown game name returns
normally after printing a message (no fatal error), and a negative amount is
accepted and decrements the counter (counters are modified). -/
theorem c8_legacy_counterexample :
    FD.add_win "Bogus" [FD.mkPlayer "Aaron"] 1
      = ([FD.mkPlayer "Aaron"], ["Game Bogus does not exist!"])
    ∧ (FD.add_win "PK\x27s" [FD.mkPlayer "Aaron"] (-1)).1
      = [{ FD.mkPlayer "Aaron" with pk_w := -1 }] := by decide

/-- Claim C8 amended, which holds of add_win and add_loss in program.py: a
game name outside the fixed enumeration raises a fatal error (no logging and
continuing), a negative amount on a known game raises InvalidAmount, and in
both cases the call produces no updated state, so no counter is modified. -/
theorem c8_add_win_loss_guards (game : String) (team : List String) (amt : Int)
    (st : AggState) :
    (lookupGameType game = none →
      add_win game team amt st = .error (.unknownCategory game)
      ∧ add_loss game team amt st = .error (.unknownCategory game))
    ∧ (∀ c, lookupGameType game = some c → amt < 0 →
      add_win game team amt st = .error .invalidAmount
      ∧ add_loss game team amt st = .error .invalidAmount) := by
  constructor
  · intro hn
    exact ⟨add_win_none _ _ _ _ hn, add_loss_none _ _ _ _ hn⟩
  · intro c hc hneg
    constructor
    · unfold add_win
      rw [hc]
      exact if_pos hneg
    · unfold add_loss
      rw [hc]
      exact if_pos hneg

/-- Witness for the amended claim C8 at concrete calls. -/
theorem c8_add_win_loss_guards_witness :
    add_win "Bogus" ["Aaron"] 1 initState = .error (.unknownCategory "Bogus")
    ∧ add_win "PK\x27s" ["Aaron"] (-1) initState = .error .invalidAmount
    ∧ add_loss "PK\x27s" ["Aaron"] (-1) initState = .error .invalidAmount := by
  obtain ⟨hn, -⟩ := c8_add_win_loss_guards "Bogus" ["Aaron"] 1 initState
  obtain ⟨h1, -⟩ := hn (by decide)
  obtain ⟨-, hneg2⟩ := c8_add_win_loss_guards "PK\x27s" ["Aaron"] (-1) initState
  obtain ⟨h2, h3⟩ := hneg2 "pk" (by decide) (by decide)
  exact ⟨h1, h2, h3⟩

/-- Claim C9: for nonnegative counts, update_stat writes the record string
wins-losses and the percentage wins / (wins + losses) rounded to four decimal
places, except that a 0-0 record short-circuits to exactly 0 with no division
by zero. -/
theorem c9_format_record (wins losses : Int) (hw : 0 ≤ wins) (hl : 0 ≤ losses) :
    update_stat wins losses
      = .ok (toString wins ++ "-" ++ toString losses,
          if wins = 0 ∧ losses = 0 then 0
          else round4 ((wins : ℚ) / ((wins : ℚ) + (losses : ℚ)))) := by
  have hneg : ¬ (wins < 0 ∨ losses < 0) := by
    rintro (h | h)
    · exact absurd h (not_lt.mpr hw)
    · exact absurd h (not_lt.mpr hl)
  rw [update_stat, if_neg hneg]

/-- Witness for claim C9: update_stat 0 0 yields the record 0-0 and the exact
percentage 0. -/
theorem c9_format_record_witness : update_stat 0 0 = .ok ("0-0", 0) := by
  rw [c9_format_record 0 0 le_rfl le_rfl, if_pos ⟨rfl, rfl⟩]
  rfl

/-- Counterexample to claim C10 as stated: on the concrete day c10dayOk, whose
roster contains the unknown name Zed alone on its side, processing completes
without any KeyError and even awards Zed the Days win. -/
theorem c10_unknown_alone_counterexample :
    player_names.contains "Zed" = false
    ∧ "Zed" ∈ c10dayOk.team1
    ∧ exIsOk (parse_day initState c10dayOk) = true
    ∧ statsAfterDay initState c10dayOk "Zed" "days" = some ⟨1, 0⟩ := by decide

/-- Claim C10 amended: aggregation is total only over rosters of known names;
whenever a roster pairs a name outside player_names with a player of a
different name, update_team_lists (and hence the day processing that starts
with it) raises a KeyError on an unknown name; an unknown name alone on its
roster slips through. -/
theorem c10_unknown_name_keyerror (team : List String) (st : AggState) (o p2 : String)
    (ho : o ∈ team) (hno : player_names.contains o = false)
    (hp : p2 ∈ team) (hne : p2 ≠ o) :
    (∃ n, update_team_lists team st = .error (.keyError n)
      ∧ player_names.contains n = false)
    ∧ (∀ d : Day, d.team1 = team →
        ∃ n, parse_day st d = .error (.keyError n)
          ∧ player_names.contains n = false) := by
  constructor
  · exact update_team_lists_err team st o p2 ho hno hp hne
  · intro d hd
    rcases update_team_lists_err team st o p2 ho hno hp hne with ⟨n, hu, hn⟩
    refine ⟨n, ?_, hn⟩
    unfold parse_day
    rw [hd, hu, ex_bind_err]

/-- Witness for the amended claim C10: the roster c10team pairs the unknown
Zed with Aaron, and both update_team_lists and parse_day on c10dayErr raise a
KeyError on an unknown name. -/
theorem c10_unknown_name_keyerror_witness :
    (∃ n, update_team_lists c10team initState = .error (.keyError n)
      ∧ player_names.contains n = false)
    ∧ (∃ n, parse_day initState c10dayErr = .error (.keyError n)
      ∧ player_names.contains n = false) := by
  obtain ⟨h1, h2⟩ := c10_unknown_name_keyerror c10team initState "Zed" "Aaron"
    (by decide) (by decide) (by decide) (by decide)
  exact ⟨h1, h2 c10dayErr rfl⟩
